import Mathlib

/-!
Shallow embedding of the pgfplots code generator (Rust crate `pgfplots`).

The embedding follows the source files:
  * src/axis/plot/coordinate.rs  (Coordinate2D and its Display impl)
  * src/axis/plot/color.rs       (PredefinedColor, Color, Color::from_mix)
  * src/axis/plot.rs             (PlotKey, Plot2D, Type2D, ErrorCharacter,
                                  ErrorDirection, Marker, MarkShape, MarkOption)
  * src/axis.rs                  (AxisKey, Axis, Scale)
  * src/lib.rs                   (PictureKey, Picture)

Rust `f64` values are modelled as rationals; the standard-library
locale-independent `Display` for `f64` (shortest round-trip decimal,
integral values printed without a fractional part) is modelled by
`fmtF64`, which prints the exact decimal expansion of the rational and
suppresses the fractional part for integral values.  Rust `Vec<T>` is
modelled as `List T` (with `push` appending at the end), `String` as
`String`, `u8` weights as `Nat`, and `std::mem::discriminant` as the
`tag` function of each key enum (equal tags exactly when the variant
constructors coincide, payloads ignored).

The `Display` implementations only ever write into an in-memory string
buffer, for which every `write!` succeeds, so each of them is modelled
as a total function into `String` named `render`.
-/

/-- Decimal digits of a natural number, most significant first; `fuel`
bounds the recursion depth and `n + 1` is always enough for `n`. -/
def natReprAux : Nat → Nat → List Char
  | 0, _ => []
  | fuel + 1, n =>
    if n < 10 then [Nat.digitChar n]
    else natReprAux fuel (n / 10) ++ [Nat.digitChar (n % 10)]

/-- Decimal representation of a natural number (model of `u8`/`usize`
to-string and of the digit part of integer formatting). -/
def natRepr (n : Nat) : String :=
  String.mk (natReprAux (n + 1) n)

/-- Decimal representation of an integer (sign followed by digits). -/
def intRepr : Int → String
  | Int.ofNat n => natRepr n
  | Int.negSucc n => "-" ++ natRepr (n + 1)

/-- Digits of the fractional part `r / d` (with `0 ≤ r < d`) by long
division; stops when the remainder is zero, so there are no trailing
zeros.  `fuel` bounds the number of produced digits. -/
def fracDigits : Nat → Nat → Nat → List Char
  | 0, _, _ => []
  | fuel + 1, r, d =>
    if r = 0 then []
    else Nat.digitChar (r * 10 / d) :: fracDigits fuel (r * 10 % d) d

/-- Model of the Rust `Display` for `f64` on rational values: an integral
value is printed as a plain integer (no decimal point, no trailing
zero); otherwise sign, integer part, `.` and the exact fractional
digits are printed.  Every finite `f64` is a rational whose exact
decimal expansion has at most 1100 fractional digits, so the fuel is
never exhausted on values a Rust program can hold. -/
def fmtF64 (q : ℚ) : String :=
  if q.den = 1 then intRepr q.num
  else
    (if q.num < 0 then "-" else "") ++
    natRepr (q.num.natAbs / q.den) ++ "." ++
    String.mk (fracDigits 1100 (q.num.natAbs % q.den) q.den)

/-- Concatenation of a list of strings (model of `Vec<String>::join("")`
and of a loop of `write!` calls). -/
def strConcat : List String → String
  | [] => ""
  | s :: rest => s ++ strConcat rest

/-- Concatenation of the images of a list (model of a `for` loop that
writes one fragment per element). -/
def strConcatMap (f : α → String) : List α → String
  | [] => ""
  | a :: rest => f a ++ strConcatMap f rest

/-- Interleave a separator between the strings of a list, with no
leading or trailing separator (model of `Vec<String>::join(sep)`). -/
def sepBy (sep : String) : List String → String
  | [] => ""
  | [s] => s
  | s :: rest => s ++ sep ++ sepBy sep rest

/-- Does `needle` occur as a contiguous sublist of `hay`? -/
def listContainsSub [BEq α] (hay needle : List α) : Bool :=
  match hay with
  | [] => needle.isEmpty
  | _ :: rest => needle.isPrefixOf hay || listContainsSub rest needle

/-- Does the string contain `needle` as a substring? -/
def strContainsSub (needle s : String) : Bool :=
  listContainsSub s.data needle.data

/-- Model of `PredefinedColor` from src/axis/plot/color.rs. -/
inductive PredefinedColor
  | Red | Green | Blue | Cyan | Magenta | Yellow | Black | Gray | White
  | DarkGray | LightGray | Brown | Lime | Olive | Orange | Pink | Purple
  | Teal | Violet
deriving DecidableEq

/-- The strum `Display` of `PredefinedColor` (`serialize_all =
"lowercase"`): the variant name in lowercase. -/
def PredefinedColor.render : PredefinedColor → String
  | Red => "red"
  | Green => "green"
  | Blue => "blue"
  | Cyan => "cyan"
  | Magenta => "magenta"
  | Yellow => "yellow"
  | Black => "black"
  | Gray => "gray"
  | White => "white"
  | DarkGray => "darkgray"
  | LightGray => "lightgray"
  | Brown => "brown"
  | Lime => "lime"
  | Olive => "olive"
  | Orange => "orange"
  | Pink => "pink"
  | Purple => "purple"
  | Teal => "teal"
  | Violet => "violet"

/-- Model of `Color` from src/axis/plot/color.rs: a wrapper around the rendered
color text. -/
structure Color where
  value : String
deriving DecidableEq

/-- The `From<PredefinedColor> for Color` conversion. -/
def PredefinedColor.toColor (c : PredefinedColor) : Color :=
  { value := c.render }

/-- The four strings pushed per `(color, weight)` entry by the loop in
`Color::from_mix`. -/
def mixParts : List (Color × Nat) → List String
  | [] => []
  | cw :: rest => cw.1.value :: "," :: natRepr cw.2 :: ";" :: mixParts rest

/-- Model of `Color::from_mix` from src/axis/plot/color.rs: start from the
prefix `"rgb,255:"`, push `color`, `","`, `weight`, `";"` per entry,
pop the last element of the vector, and join everything. -/
def Color.from_mix (weighted_colors : List (Color × Nat)) : Color :=
  let result := "rgb,255:" :: mixParts weighted_colors
  { value := strConcat result.dropLast }

/-- Model of `MarkShape` from src/axis/plot.rs. -/
inductive MarkShape
  | O | OFilled | X | Plus | Minus | Pipe | Star | Asterisk
  | OPlus | OPlusFilled | OTimes | OTimesFilled
  | Square | SquareFilled | Triangle | TriangleFilled
  | Diamond | DiamondFilled | Pentagon | PentagonFilled
  | Text (text : String)
deriving DecidableEq

/-- The strum `Display` of `MarkShape` (lowercase, with the starred
serializations overridden).  The `Text` variant is `strum(disabled)`
and is never rendered through this function: `Marker.render` handles
it separately. -/
def MarkShape.render : MarkShape → String
  | O => "o"
  | OFilled => "*"
  | X => "x"
  | Plus => "+"
  | Minus => "-"
  | Pipe => "|"
  | Star => "star"
  | Asterisk => "asterisk"
  | OPlus => "oplus"
  | OPlusFilled => "oplus*"
  | OTimes => "otimes"
  | OTimesFilled => "otimes*"
  | Square => "square"
  | SquareFilled => "square*"
  | Triangle => "triangle"
  | TriangleFilled => "triangle*"
  | Diamond => "diamond"
  | DiamondFilled => "diamond*"
  | Pentagon => "pentagon"
  | PentagonFilled => "pentagon*"
  | Text _ => ""

/-- Model of `MarkOption` from src/axis/plot.rs. -/
inductive MarkOption
  | Scale (number : ℚ)
  | Fill (color : Color)
  | Draw (color : Color)
  | XScale (number : ℚ)
  | YScale (number : ℚ)
deriving DecidableEq

/-- The `Display` impl of `MarkOption`. -/
def MarkOption.render : MarkOption → String
  | Scale number => "scale=" ++ fmtF64 number
  | Fill color => "fill=\x7b" ++ color.value ++ "\x7d"
  | Draw color => "draw=\x7b" ++ color.value ++ "\x7d"
  | XScale number => "xscale=" ++ fmtF64 number
  | YScale number => "yscale=" ++ fmtF64 number

/-- Model of `Marker` from src/axis/plot.rs. -/
structure Marker where
  shape : MarkShape
  options : List MarkOption
deriving DecidableEq

/-- The `Display` impl of `Marker`: the text shape needs the extra
`mark=text` flag; options are comma-joined in insertion order. -/
def Marker.render (m : Marker) : String :=
  (match m.shape with
   | MarkShape.Text text => "mark=text, text mark=" ++ text
   | s => "mark=" ++ s.render) ++
  ", mark options=\x7b" ++ sepBy (", ") (m.options.map MarkOption.render) ++ "\x7d"

/-- Model of `Type2D` from src/axis/plot.rs. -/
inductive Type2D
  | SharpPlot
  | Smooth (tension : ℚ)
  | ConstLeft
  | ConstRight
  | ConstMid
  | JumpLeft
  | JumpRight
  | JumpMid
  | XBar (bar_width : ℚ) (bar_shift : ℚ)
  | YBar (bar_width : ℚ) (bar_shift : ℚ)
  | XComb
  | YComb
  | OnlyMarks
deriving DecidableEq

/-- The `Display` impl of `Type2D`. -/
def Type2D.render : Type2D → String
  | SharpPlot => "sharp plot"
  | Smooth tension => "smooth, tension=" ++ fmtF64 tension
  | ConstLeft => "const plot mark left"
  | ConstRight => "const plot mark right"
  | ConstMid => "const plot mark mid"
  | JumpLeft => "jump mark left"
  | JumpRight => "jump mark right"
  | JumpMid => "jump mark mid"
  | XBar bar_width bar_shift =>
      "xbar, bar width=" ++ fmtF64 bar_width ++ ", bar shift=" ++ fmtF64 bar_shift
  | YBar bar_width bar_shift =>
      "ybar, bar width=" ++ fmtF64 bar_width ++ ", bar shift=" ++ fmtF64 bar_shift
  | XComb => "xcomb"
  | YComb => "ycomb"
  | OnlyMarks => "only marks"

/-- Model of `ErrorCharacter` from src/axis/plot.rs. -/
inductive ErrorCharacter
  | Absolute
  | Relative
deriving DecidableEq

/-- The `Display` impl of `ErrorCharacter`. -/
def ErrorCharacter.render : ErrorCharacter → String
  | Absolute => "explicit"
  | Relative => "explicit relative"

/-- Model of `ErrorDirection` from src/axis/plot.rs. -/
inductive ErrorDirection
  | None
  | Plus
  | Minus
  | Both
deriving DecidableEq

/-- The `Display` impl of `ErrorDirection`. -/
def ErrorDirection.render : ErrorDirection → String
  | None => "none"
  | Plus => "plus"
  | Minus => "minus"
  | Both => "both"

/-- Model of `Coordinate2D` from src/axis/plot/coordinate.rs. -/
structure Coordinate2D where
  x : ℚ
  y : ℚ
  error_x : Option ℚ
  error_y : Option ℚ
deriving DecidableEq

/-- The `Display` impl of `Coordinate2D`: `(x,y)` always; the error
suffix only when at least one error is set, with an unset error
printed as `0` (`unwrap_or(0.0)`). -/
def Coordinate2D.render (c : Coordinate2D) : String :=
  "(" ++ fmtF64 c.x ++ "," ++ fmtF64 c.y ++ ")" ++
  (if c.error_x.isSome || c.error_y.isSome then
    "\t+- (" ++ fmtF64 (c.error_x.getD 0) ++ "," ++ fmtF64 (c.error_y.getD 0) ++ ")"
  else "")

/-- Model of `From<(f64, f64)> for Coordinate2D`. -/
def Coordinate2D.fromPair (c : ℚ × ℚ) : Coordinate2D :=
  { x := c.1, y := c.2, error_x := none, error_y := none }

/-- Model of `From<(f64, f64, Option<f64>, Option<f64>)> for Coordinate2D`. -/
def Coordinate2D.fromTuple (c : ℚ × ℚ × Option ℚ × Option ℚ) : Coordinate2D :=
  { x := c.1, y := c.2.1, error_x := c.2.2.1, error_y := c.2.2.2 }

/-- Model of `PlotKey` from src/axis/plot.rs. -/
inductive PlotKey
  | Custom (key : String)
  | Type2D (value : Type2D)
  | XError (value : ErrorCharacter)
  | XErrorDirection (value : ErrorDirection)
  | YError (value : ErrorCharacter)
  | YErrorDirection (value : ErrorDirection)
  | Marker (marker : Marker)
deriving DecidableEq

/-- The `Display` impl of `PlotKey`. -/
def PlotKey.render : PlotKey → String
  | Custom key => key
  | Type2D value => value.render
  | XError value => "error bars/x " ++ value.render
  | XErrorDirection value => "error bars/x dir=" ++ value.render
  | YError value => "error bars/y " ++ value.render
  | YErrorDirection value => "error bars/y dir=" ++ value.render
  | Marker marker => marker.render

/-- Model of `std::mem::discriminant` on `PlotKey`: two keys have equal
tags exactly when they are built from the same variant, whatever the
payloads. -/
def PlotKey.tag : PlotKey → Nat
  | Custom _ => 0
  | Type2D _ => 1
  | XError _ => 2
  | XErrorDirection _ => 3
  | YError _ => 4
  | YErrorDirection _ => 5
  | Marker _ => 6

/-- Model of `Plot2D` from src/axis/plot.rs. -/
structure Plot2D where
  keys : List PlotKey
  coordinates : List Coordinate2D
deriving DecidableEq

/-- Model of `Plot2D::new` (the `Default` instance: both vectors empty). -/
def Plot2D.new : Plot2D :=
  { keys := [], coordinates := [] }

/-- The `Display` impl of `Plot2D` from src/axis/plot.rs. -/
def Plot2D.render (plot : Plot2D) : String :=
  "\t\\addplot[" ++
  (if plot.keys.isEmpty then ""
   else "\n" ++ strConcatMap (fun k => "\t\t" ++ k.render ++ ",\n") plot.keys ++ "\t") ++
  "] coordinates \x7b\n" ++
  strConcatMap (fun c => "\t\t" ++ c.render ++ "\n") plot.coordinates ++
  "\t\x7d;"

/-- Model of `Plot2D::add_key` from src/axis/plot.rs: a custom key skips the
scan; otherwise the first key with the same discriminant is removed;
in every case the new key is pushed at the end. -/
def Plot2D.add_key (plot : Plot2D) (key : PlotKey) : Plot2D :=
  let keys :=
    match key with
    | PlotKey.Custom _ => plot.keys
    | _ =>
      match plot.keys.findIdx? (fun k => k.tag == key.tag) with
      | some index => plot.keys.eraseIdx index
      | none => plot.keys
  { plot with keys := keys ++ [key] }

/-- A sequence of `Plot2D::add_key` calls, first element first. -/
def Plot2D.add_keys (plot : Plot2D) (ks : List PlotKey) : Plot2D :=
  ks.foldl Plot2D.add_key plot

/-- Model of `Scale` from src/axis.rs. -/
inductive Scale
  | Log
  | Normal
deriving DecidableEq

/-- The `Display` impl of `Scale`. -/
def Scale.render : Scale → String
  | Log => "log"
  | Normal => "normal"

/-- Model of `AxisKey` from src/axis.rs. -/
inductive AxisKey
  | Custom (key : String)
  | XMode (value : Scale)
  | YMode (value : Scale)
  | Title (value : String)
  | XLabel (value : String)
  | YLabel (value : String)
deriving DecidableEq

/-- The `Display` impl of `AxisKey`. -/
def AxisKey.render : AxisKey → String
  | Custom key => key
  | XMode value => "xmode=" ++ value.render
  | YMode value => "ymode=" ++ value.render
  | Title value => "title=\x7b" ++ value ++ "\x7d"
  | XLabel value => "xlabel=\x7b" ++ value ++ "\x7d"
  | YLabel value => "ylabel=\x7b" ++ value ++ "\x7d"

/-- Model of `std::mem::discriminant` on `AxisKey`. -/
def AxisKey.tag : AxisKey → Nat
  | Custom _ => 0
  | XMode _ => 1
  | YMode _ => 2
  | Title _ => 3
  | XLabel _ => 4
  | YLabel _ => 5

/-- Model of `Axis` from src/axis.rs. -/
structure Axis where
  keys : List AxisKey
  plots : List Plot2D
deriving DecidableEq

/-- Model of `Axis::new` (the `Default` instance: both vectors empty). -/
def Axis.new : Axis :=
  { keys := [], plots := [] }

/-- The `Display` impl of `Axis` from src/axis.rs. -/
def Axis.render (axis : Axis) : String :=
  "\\begin\x7baxis\x7d" ++
  (if axis.keys.isEmpty then ""
   else "[\n" ++ strConcatMap (fun k => "\t" ++ k.render ++ ",\n") axis.keys ++ "]") ++
  "\n" ++
  strConcatMap (fun p => p.render ++ "\n") axis.plots ++
  "\\end\x7baxis\x7d"

/-- Model of `Axis::add_key` from src/axis.rs (same pattern as
`Plot2D::add_key`). -/
def Axis.add_key (axis : Axis) (key : AxisKey) : Axis :=
  let keys :=
    match key with
    | AxisKey.Custom _ => axis.keys
    | _ =>
      match axis.keys.findIdx? (fun k => k.tag == key.tag) with
      | some index => axis.keys.eraseIdx index
      | none => axis.keys
  { axis with keys := keys ++ [key] }

/-- A sequence of `Axis::add_key` calls, first element first. -/
def Axis.add_keys (axis : Axis) (ks : List AxisKey) : Axis :=
  ks.foldl Axis.add_key axis

/-- Model of `Axis::set_title`. -/
def Axis.set_title (axis : Axis) (title : String) : Axis :=
  axis.add_key (AxisKey.Title title)

/-- Model of `Axis::set_x_label`. -/
def Axis.set_x_label (axis : Axis) (label : String) : Axis :=
  axis.add_key (AxisKey.XLabel label)

/-- Model of `Axis::set_y_label`. -/
def Axis.set_y_label (axis : Axis) (label : String) : Axis :=
  axis.add_key (AxisKey.YLabel label)

/-- Model of `PictureKey` from src/lib.rs: only the `Custom` variant exists. -/
inductive PictureKey
  | Custom (key : String)
deriving DecidableEq

/-- The `Display` impl of `PictureKey`. -/
def PictureKey.render : PictureKey → String
  | Custom key => key

/-- Model of `Picture` from src/lib.rs. -/
structure Picture where
  keys : List PictureKey
  axes : List Axis
deriving DecidableEq

/-- Model of `Picture::new` (the `Default` instance: both vectors empty). -/
def Picture.new : Picture :=
  { keys := [], axes := [] }

/-- The `Display` impl of `Picture` from src/lib.rs. -/
def Picture.render (picture : Picture) : String :=
  "\\begin\x7btikzpicture\x7d" ++
  (if picture.keys.isEmpty then ""
   else "[\n" ++ strConcatMap (fun k => "\t" ++ k.render ++ ",\n") picture.keys ++ "]") ++
  "\n" ++
  strConcatMap (fun a => a.render ++ "\n") picture.axes ++
  "\\end\x7btikzpicture\x7d"

/-- Model of `Picture::add_key` from src/lib.rs: the match on the key has only
the `Custom` arm and does nothing; the key is always pushed. -/
def Picture.add_key (picture : Picture) (key : PictureKey) : Picture :=
  match key with
  | PictureKey.Custom _ => { picture with keys := picture.keys ++ [key] }

/-- Remove the first element satisfying `p`, if any (specification-side
mirror of the `position`-then-`remove` idiom in the `add_key`
implementations). -/
def removeFirstWith (p : α → Bool) : List α → List α
  | [] => []
  | a :: as => if p a then as else a :: removeFirstWith p as

/-- One `add_key` step on a bare key list, phrased through a `tag`
function whose value `0` marks the custom variant. -/
def stepKey (tag : α → Nat) (keys : List α) (k : α) : List α :=
  (if tag k = 0 then keys else removeFirstWith (fun x => tag x == tag k) keys) ++ [k]

/-! ## Generic helper lemmas -/

theorem str_data_ext {a b : String} (h : a.data = b.data) : a = b := by
  cases a
  cases b
  exact congrArg String.mk h

theorem str_data_append (a b : String) : (a ++ b).data = a.data ++ b.data := by
  cases a
  cases b
  rfl

theorem str_append_empty (a : String) : a ++ "" = a := by
  apply str_data_ext
  simp [str_data_append]

theorem str_append_assoc (a b c : String) : a ++ b ++ c = a ++ (b ++ c) := by
  apply str_data_ext
  simp [str_data_append]

theorem natReprAux_digits (fuel : Nat) :
    ∀ n c, c ∈ natReprAux fuel n → ∃ d, d < 10 ∧ c = Nat.digitChar d := by
  induction fuel with
  | zero => intro n c hc; simp [natReprAux] at hc
  | succ fuel ih =>
    intro n c hc
    by_cases h : n < 10
    · rw [natReprAux, if_pos h] at hc
      exact ⟨n, h, by simpa using hc⟩
    · rw [natReprAux, if_neg h] at hc
      rcases List.mem_append.mp hc with hm | hm
      · exact ih (n / 10) c hm
      · exact ⟨n % 10, Nat.mod_lt _ (by omega), by simpa using hm⟩

theorem digitChar_ne_dot : ∀ d : Nat, d < 10 → Nat.digitChar d ≠ '.' := by
  decide

theorem natRepr_no_dot (n : Nat) : '.' ∉ (natRepr n).data := by
  intro hmem
  obtain ⟨d, hd, hc⟩ := natReprAux_digits (n + 1) n _ hmem
  exact digitChar_ne_dot d hd hc.symm

theorem intRepr_no_dot (i : Int) : '.' ∉ (intRepr i).data := by
  cases i with
  | ofNat n => exact natRepr_no_dot n
  | negSucc n =>
    intro hmem
    rw [intRepr, str_data_append] at hmem
    rcases List.mem_append.mp hmem with h | h
    · revert h
      decide
    · exact natRepr_no_dot _ h

/-! ## Lemmas about removing the first matching key -/

theorem removeFirstWith_of_no_match (p : α → Bool) (l : List α)
    (h : ∀ x ∈ l, p x = false) : removeFirstWith p l = l := by
  induction l with
  | nil => rfl
  | cons a as ih =>
    simp only [removeFirstWith, h a (by simp), if_neg Bool.false_ne_true]
    rw [ih fun x hx => h x (by simp [hx])]

theorem removeFirstWith_split (p : α → Bool) (l₁ l₂ : List α) (m : α)
    (h₁ : ∀ x ∈ l₁, p x = false) (hm : p m = true) :
    removeFirstWith p (l₁ ++ m :: l₂) = l₁ ++ l₂ := by
  induction l₁ with
  | nil => simp [removeFirstWith, hm]
  | cons a as ih =>
    rw [List.cons_append]
    simp only [removeFirstWith, h₁ a (by simp), if_neg Bool.false_ne_true]
    rw [ih fun x hx => h₁ x (by simp [hx])]
    rfl

theorem filter_removeFirstWith_self (p : α → Bool) (l : List α) :
    (removeFirstWith p l).filter p = (l.filter p).tail := by
  induction l with
  | nil => rfl
  | cons a as ih =>
    by_cases h : p a
    · simp [removeFirstWith, h, List.filter_cons]
    · simp [removeFirstWith, h, List.filter_cons, ih]

theorem filter_removeFirstWith_disjoint (p q : α → Bool) (l : List α)
    (hpq : ∀ x, p x = true → q x = false) :
    (removeFirstWith p l).filter q = l.filter q := by
  induction l with
  | nil => rfl
  | cons a as ih =>
    by_cases h : p a
    · simp [removeFirstWith, h, List.filter_cons, hpq a h]
    · simp [removeFirstWith, h, List.filter_cons, ih]

theorem findIdx_erase_eq_removeFirstWith (p : α → Bool) (l : List α) :
    (match l.findIdx? p with
     | some index => l.eraseIdx index
     | none => l) = removeFirstWith p l := by
  induction l with
  | nil => rfl
  | cons a as ih =>
    by_cases h : p a
    · simp [List.findIdx?_cons, h, removeFirstWith, List.eraseIdx]
    · rw [List.findIdx?_cons, if_neg (by simp [h]), List.findIdx?_succ]
      simp only [removeFirstWith, if_neg (by simp [h] : ¬ p a = true)]
      cases hfind : as.findIdx? p with
      | none =>
        rw [hfind] at ih
        exact congrArg (List.cons a) ih
      | some i =>
        rw [hfind] at ih
        exact congrArg (List.cons a) ih

theorem plot_add_key_keys (plot : Plot2D) (key : PlotKey) :
    (plot.add_key key).keys = stepKey PlotKey.tag plot.keys key := by
  cases key <;>
    simp [Plot2D.add_key, stepKey, PlotKey.tag, findIdx_erase_eq_removeFirstWith]

theorem plot_add_key_coordinates (plot : Plot2D) (key : PlotKey) :
    (plot.add_key key).coordinates = plot.coordinates := by
  cases key <;> rfl

theorem plot_add_keys_keys (ks : List PlotKey) : ∀ plot : Plot2D,
    (plot.add_keys ks).keys = List.foldl (stepKey PlotKey.tag) plot.keys ks := by
  induction ks with
  | nil => intro plot; rfl
  | cons k ks ih =>
    intro plot
    show ((plot.add_key k).add_keys ks).keys = _
    rw [ih (plot.add_key k), plot_add_key_keys, List.foldl_cons]

theorem axis_add_key_keys (axis : Axis) (key : AxisKey) :
    (axis.add_key key).keys = stepKey AxisKey.tag axis.keys key := by
  cases key <;>
    simp [Axis.add_key, stepKey, AxisKey.tag, findIdx_erase_eq_removeFirstWith]

theorem axis_add_key_plots (axis : Axis) (key : AxisKey) :
    (axis.add_key key).plots = axis.plots := by
  cases key <;> rfl

theorem axis_add_keys_keys (ks : List AxisKey) : ∀ axis : Axis,
    (axis.add_keys ks).keys = List.foldl (stepKey AxisKey.tag) axis.keys ks := by
  induction ks with
  | nil => intro axis; rfl
  | cons k ks ih =>
    intro axis
    show ((axis.add_key k).add_keys ks).keys = _
    rw [ih (axis.add_key k), axis_add_key_keys, List.foldl_cons]

theorem foldl_stepKey_filter {K : Type} (tag : K → Nat) (t : Nat) (ht : ¬ t = 0)
    (ks : List K) :
    (List.foldl (stepKey tag) [] ks).filter (fun x => tag x == t) =
      ((ks.filter (fun x => tag x == t)).getLast?).toList := by
  induction ks using List.reverseRecOn with
  | nil => rfl
  | append_singleton ks k ih =>
    rw [List.foldl_append, List.foldl_cons, List.foldl_nil, List.filter_append]
    by_cases hk0 : tag k = 0
    · have hkt : (tag k == t) = false := by
        rw [hk0]
        exact beq_eq_false_iff_ne.mpr fun h => ht h.symm
      rw [stepKey, if_pos hk0, List.filter_append, ih]
      simp [List.filter_cons, hkt]
    · rw [stepKey, if_neg hk0, List.filter_append]
      by_cases hkt : tag k = t
      · subst hkt
        rw [filter_removeFirstWith_self, ih]
        have hsingle : List.filter (fun x => tag x == tag k) [k] = [k] := by simp
        rw [hsingle, List.getLast?_concat]
        cases hlast : (List.filter (fun x => tag x == tag k) ks).getLast? <;> simp
      · have hdisj : ∀ x, (tag x == tag k) = true → (tag x == t) = false := by
          intro x hx
          rw [beq_iff_eq] at hx
          exact beq_eq_false_iff_ne.mpr (by rw [hx]; exact hkt)
        rw [filter_removeFirstWith_disjoint _ _ _ hdisj, ih]
        have hkt2 : (tag k == t) = false := beq_eq_false_iff_ne.mpr hkt
        simp [List.filter_cons, hkt2]

theorem str_data_empty : ("" : String).data = [] := rfl

theorem mixParts_ne_nil (cw : Color × Nat) (rest : List (Color × Nat)) :
    mixParts (cw :: rest) ≠ [] := by
  simp [mixParts]

theorem strConcat_dropLast_mixParts : ∀ l : List (Color × Nat), l ≠ [] →
    strConcat ((mixParts l).dropLast) =
      sepBy (";") (l.map fun cw => cw.1.value ++ "," ++ natRepr cw.2) := by
  intro l
  induction l with
  | nil => intro h; exact absurd rfl h
  | cons cw rest ih =>
    intro _
    cases rest with
    | nil =>
      show strConcat [cw.1.value, ",", natRepr cw.2] = cw.1.value ++ "," ++ natRepr cw.2
      apply str_data_ext
      simp [strConcat, str_data_append, str_data_empty, List.append_assoc]
    | cons cw2 rest2 =>
      have hM : mixParts (cw2 :: rest2) ≠ [] := mixParts_ne_nil cw2 rest2
      rw [mixParts, List.dropLast_cons_of_ne_nil (by simp),
        List.dropLast_cons_of_ne_nil (by simp),
        List.dropLast_cons_of_ne_nil (by simp),
        List.dropLast_cons_of_ne_nil hM]
      rw [List.map_cons, List.map_cons]
      rw [show ∀ (e e2 : String) (t : List String), sepBy (";") (e :: e2 :: t) =
        e ++ ";" ++ sepBy (";") (e2 :: t) from fun e e2 t => rfl]
      have ih2 := ih (by simp)
      rw [List.map_cons] at ih2
      rw [← ih2]
      apply str_data_ext
      simp [strConcat, str_data_append, List.append_assoc]

theorem plot_render_empty_keys (p : Plot2D) (h : p.keys = []) :
    p.render = "\t\\addplot[] coordinates \x7b\n" ++
      strConcatMap (fun c => "\t\t" ++ c.render ++ "\n") p.coordinates ++ "\t\x7d;" := by
  rw [Plot2D.render, h]
  apply str_data_ext
  simp only [List.isEmpty_nil, if_true, str_data_append, str_data_empty,
    List.nil_append, List.append_assoc]
  rfl

theorem axis_render_empty_keys (a : Axis) (h : a.keys = []) :
    a.render = "\\begin\x7baxis\x7d\n" ++
      strConcatMap (fun p => p.render ++ "\n") a.plots ++ "\\end\x7baxis\x7d" := by
  rw [Axis.render, h]
  apply str_data_ext
  simp only [List.isEmpty_nil, if_true, str_data_append, str_data_empty,
    List.nil_append, List.append_assoc]
  rfl

theorem picture_render_empty_keys (x : Picture) (h : x.keys = []) :
    x.render = "\\begin\x7btikzpicture\x7d\n" ++
      strConcatMap (fun a => a.render ++ "\n") x.axes ++ "\\end\x7btikzpicture\x7d" := by
  rw [Picture.render, h]
  apply str_data_ext
  simp only [List.isEmpty_nil, if_true, str_data_append, str_data_empty,
    List.nil_append, List.append_assoc]
  rfl

/-! ## The claims -/

/-- Claim C4: rendering a `Plot2D` with no keys and no coordinates
produces exactly `"\t\\addplot[] coordinates {\n\t};"`, and after
pushing the single coordinate `(1.0, -1.0)` the rendered body contains
exactly one coordinate line, giving
`"\t\\addplot[] coordinates {\n\t\t(1,-1)\n\t};"`. -/
theorem claim4_plot_render_scenario :
    Plot2D.new.render = "\t\\addplot[] coordinates \x7b\n\t\x7d;"
  ∧ { Plot2D.new with
      coordinates := Plot2D.new.coordinates ++ [Coordinate2D.fromPair (1, -1)] }.render
      = "\t\\addplot[] coordinates \x7b\n\t\t(1,-1)\n\t\x7d;" := by
  constructor
  · decide
  · decide

/-- Claim C5: a `Coordinate2D` renders as `"(x,y)"`; exactly when an
error is set, a tab and `"+- (ex,ey)"` are appended, an unset error
rendering as `0`; the coordinate built from `(1.0, -1.0, None,
Some(3.0))` renders exactly as `"(1,-1)\t+- (0,3)"`. -/
theorem claim5_coordinate_render :
    (∀ c : Coordinate2D, c.error_x = none → c.error_y = none →
        c.render = "(" ++ fmtF64 c.x ++ "," ++ fmtF64 c.y ++ ")")
  ∧ (∀ c : Coordinate2D, c.error_x.isSome = true ∨ c.error_y.isSome = true →
        c.render = "(" ++ fmtF64 c.x ++ "," ++ fmtF64 c.y ++ ")\t+- ("
          ++ fmtF64 (c.error_x.getD 0) ++ "," ++ fmtF64 (c.error_y.getD 0) ++ ")")
  ∧ (Coordinate2D.fromTuple (1, -1, none, some 3)).render = "(1,-1)\t+- (0,3)" := by
  refine ⟨?_, ?_, by decide⟩
  · intro c hx hy
    rw [Coordinate2D.render, hx, hy]
    rw [if_neg (by simp)]
    exact str_append_empty _
  · intro c herr
    rw [Coordinate2D.render, if_pos (by rcases herr with h | h <;> simp [h])]
    apply str_data_ext
    simp only [str_data_append, List.append_assoc]
    rfl

/-- Witness for C5 at concrete inputs. -/
theorem claim5_coordinate_render_witness :
    (Coordinate2D.fromPair (2, 3)).render = "(" ++ fmtF64 2 ++ "," ++ fmtF64 3 ++ ")" :=
  claim5_coordinate_render.1 (Coordinate2D.fromPair (2, 3)) rfl rfl

/-- Claim C9: rendering each of `Coordinate2D`, `Plot2D`, `Axis` and
`Picture` is a deterministic pure function of the current
state; in the embedding each `render` is a total Lean function into
`String`, and this theorem states that its output is determined by the
fields of the rendered value, so two renderings of the same unmutated
value are character-for-character identical. -/
theorem claim9_render_deterministic :
    (∀ c₁ c₂ : Coordinate2D, c₁.x = c₂.x → c₁.y = c₂.y →
        c₁.error_x = c₂.error_x → c₁.error_y = c₂.error_y → c₁.render = c₂.render)
  ∧ (∀ p₁ p₂ : Plot2D, p₁.keys = p₂.keys → p₁.coordinates = p₂.coordinates →
        p₁.render = p₂.render)
  ∧ (∀ a₁ a₂ : Axis, a₁.keys = a₂.keys → a₁.plots = a₂.plots → a₁.render = a₂.render)
  ∧ (∀ x₁ x₂ : Picture, x₁.keys = x₂.keys → x₁.axes = x₂.axes → x₁.render = x₂.render) := by
  refine ⟨?_, ?_, ?_, ?_⟩
  · intro c₁ c₂ h1 h2 h3 h4
    cases c₁
    cases c₂
    cases h1
    cases h2
    cases h3
    cases h4
    rfl
  · intro p₁ p₂ h1 h2
    cases p₁
    cases p₂
    cases h1
    cases h2
    rfl
  · intro a₁ a₂ h1 h2
    cases a₁
    cases a₂
    cases h1
    cases h2
    rfl
  · intro x₁ x₂ h1 h2
    cases x₁
    cases x₂
    cases h1
    cases h2
    rfl

/-- Witness for C9: two renderings of an identical plot state coincide. -/
theorem claim9_render_deterministic_witness :
    Plot2D.new.render = Plot2D.new.render :=
  claim9_render_deterministic.2.1 Plot2D.new Plot2D.new rfl rfl

/-- Claim C1: for every sequence of `add_key` calls on a `Plot2D` or an
`Axis`, each non-custom variant tag occurs at most once in the
resulting key list, and the surviving entry for a tag is the most
recently added value for that tag (the last entry with that tag among
the calls), appended at the end of the list at the moment it was
added; replacement compares variant tags only, never payloads.  The
filter equation says, purely in terms of tags, that the entries with a
given non-custom tag are exactly the last added key with that tag. -/
theorem claim1_add_key_dedup :
    (∀ (ks : List PlotKey) (t : Nat), ¬ t = 0 →
        (Plot2D.new.add_keys ks).keys.filter (fun k => k.tag == t) =
          ((ks.filter (fun k => k.tag == t)).getLast?).toList)
  ∧ (∀ (p : Plot2D) (k : PlotKey), (p.add_key k).keys.getLast? = some k)
  ∧ (∀ (ks : List AxisKey) (t : Nat), ¬ t = 0 →
        (Axis.new.add_keys ks).keys.filter (fun k => k.tag == t) =
          ((ks.filter (fun k => k.tag == t)).getLast?).toList)
  ∧ (∀ (a : Axis) (k : AxisKey), (a.add_key k).keys.getLast? = some k) := by
  refine ⟨?_, ?_, ?_, ?_⟩
  · intro ks t ht
    rw [plot_add_keys_keys]
    exact foldl_stepKey_filter PlotKey.tag t ht ks
  · intro p k
    rw [plot_add_key_keys, stepKey, List.getLast?_concat]
  · intro ks t ht
    rw [axis_add_keys_keys]
    exact foldl_stepKey_filter AxisKey.tag t ht ks
  · intro a k
    rw [axis_add_key_keys, stepKey, List.getLast?_concat]

/-- Witness for C1: two `Type2D` keys with different payloads collapse
to the most recent one. -/
theorem claim1_add_key_dedup_witness :
    (Plot2D.new.add_keys
        [PlotKey.Type2D Type2D.SharpPlot, PlotKey.Type2D Type2D.ConstMid]).keys.filter
        (fun k => k.tag == 1)
      = [PlotKey.Type2D Type2D.ConstMid] := by
  have h := claim1_add_key_dedup.1
    [PlotKey.Type2D Type2D.SharpPlot, PlotKey.Type2D Type2D.ConstMid] 1 (by decide)
  rw [h]
  decide

/-- Claim C2: adding a `Custom` key to a `Plot2D`, `Axis` or `Picture`
appends it unconditionally (the key list grows by exactly one entry
and no existing entry is removed), and adding the same custom text
twice to a fresh plot yields two entries that are both present in the
rendered output. -/
theorem claim2_custom_appends :
    (∀ (p : Plot2D) (s : String),
        (p.add_key (PlotKey.Custom s)).keys = p.keys ++ [PlotKey.Custom s]
      ∧ (p.add_key (PlotKey.Custom s)).keys.length = p.keys.length + 1)
  ∧ (∀ (a : Axis) (s : String),
        (a.add_key (AxisKey.Custom s)).keys = a.keys ++ [AxisKey.Custom s]
      ∧ (a.add_key (AxisKey.Custom s)).keys.length = a.keys.length + 1)
  ∧ (∀ (x : Picture) (s : String),
        (x.add_key (PictureKey.Custom s)).keys = x.keys ++ [PictureKey.Custom s]
      ∧ (x.add_key (PictureKey.Custom s)).keys.length = x.keys.length + 1)
  ∧ (∀ s : String,
        ((Plot2D.new.add_key (PlotKey.Custom s)).add_key (PlotKey.Custom s)).render
          = "\t\\addplot[\n\t\t" ++ s ++ ",\n\t\t" ++ s ++
            ",\n\t] coordinates \x7b\n\t\x7d;") := by
  refine ⟨?_, ?_, ?_, ?_⟩
  · intro p s
    refine ⟨rfl, ?_⟩
    rw [show (p.add_key (PlotKey.Custom s)).keys = p.keys ++ [PlotKey.Custom s] from rfl]
    simp
  · intro a s
    refine ⟨rfl, ?_⟩
    rw [show (a.add_key (AxisKey.Custom s)).keys = a.keys ++ [AxisKey.Custom s] from rfl]
    simp
  · intro x s
    refine ⟨rfl, ?_⟩
    rw [show (x.add_key (PictureKey.Custom s)).keys = x.keys ++ [PictureKey.Custom s] from rfl]
    simp
  · intro s
    have hkeys : ((Plot2D.new.add_key (PlotKey.Custom s)).add_key (PlotKey.Custom s)).keys
        = [PlotKey.Custom s, PlotKey.Custom s] := rfl
    have hcoords :
        ((Plot2D.new.add_key (PlotKey.Custom s)).add_key (PlotKey.Custom s)).coordinates
        = [] := rfl
    rw [Plot2D.render, hkeys, hcoords]
    rw [if_neg (by simp)]
    apply str_data_ext
    simp only [strConcatMap, PlotKey.render, str_data_append, str_data_empty,
      List.append_assoc, List.nil_append]
    rfl

/-- Claim C10: `add_key` on a `Plot2D` or an `Axis` leaves all keys
other than the one it replaces unchanged and in their original
relative order — a custom key or a key with no tag match appends to
the untouched sequence, and a first tag match at a split position is
removed exactly — and the coordinates of a `Plot2D` and the plots of
an `Axis` are never modified by `add_key`. -/
theorem claim10_add_key_frame :
    (∀ (p : Plot2D) (k : PlotKey),
        (p.add_key k).coordinates = p.coordinates
      ∧ (∀ s, k = PlotKey.Custom s → (p.add_key k).keys = p.keys ++ [k])
      ∧ ((∀ x ∈ p.keys, ¬ x.tag = k.tag) → (p.add_key k).keys = p.keys ++ [k])
      ∧ (∀ l₁ m l₂, ¬ k.tag = 0 → p.keys = l₁ ++ m :: l₂ → m.tag = k.tag →
          (∀ x ∈ l₁, ¬ x.tag = k.tag) → (p.add_key k).keys = l₁ ++ l₂ ++ [k]))
  ∧ (∀ (a : Axis) (k : AxisKey),
        (a.add_key k).plots = a.plots
      ∧ (∀ s, k = AxisKey.Custom s → (a.add_key k).keys = a.keys ++ [k])
      ∧ ((∀ x ∈ a.keys, ¬ x.tag = k.tag) → (a.add_key k).keys = a.keys ++ [k])
      ∧ (∀ l₁ m l₂, ¬ k.tag = 0 → a.keys = l₁ ++ m :: l₂ → m.tag = k.tag →
          (∀ x ∈ l₁, ¬ x.tag = k.tag) → (a.add_key k).keys = l₁ ++ l₂ ++ [k])) := by
  constructor
  · intro p k
    refine ⟨plot_add_key_coordinates p k, ?_, ?_, ?_⟩
    · intro s hs
      subst hs
      rfl
    · intro hnone
      rw [plot_add_key_keys, stepKey]
      by_cases hk0 : PlotKey.tag k = 0
      · rw [if_pos hk0]
      · rw [if_neg hk0]
        rw [removeFirstWith_of_no_match _ _ fun x hx =>
          beq_eq_false_iff_ne.mpr (hnone x hx)]
    · intro l₁ m l₂ hk0 hsplit hm hl₁
      rw [plot_add_key_keys, stepKey, if_neg hk0, hsplit]
      rw [removeFirstWith_split _ _ _ _
        (fun x hx => beq_eq_false_iff_ne.mpr (hl₁ x hx)) (beq_iff_eq.mpr hm)]
  · intro a k
    refine ⟨axis_add_key_plots a k, ?_, ?_, ?_⟩
    · intro s hs
      subst hs
      rfl
    · intro hnone
      rw [axis_add_key_keys, stepKey]
      by_cases hk0 : AxisKey.tag k = 0
      · rw [if_pos hk0]
      · rw [if_neg hk0]
        rw [removeFirstWith_of_no_match _ _ fun x hx =>
          beq_eq_false_iff_ne.mpr (hnone x hx)]
    · intro l₁ m l₂ hk0 hsplit hm hl₁
      rw [axis_add_key_keys, stepKey, if_neg hk0, hsplit]
      rw [removeFirstWith_split _ _ _ _
        (fun x hx => beq_eq_false_iff_ne.mpr (hl₁ x hx)) (beq_iff_eq.mpr hm)]

/-- Witness for C10: replacing the middle key of a three-key plot
removes exactly that entry, keeps the neighbours in order, and leaves
the coordinates alone. -/
theorem claim10_add_key_frame_witness :
    ((Plot2D.mk
        [PlotKey.Custom ("a"), PlotKey.XError ErrorCharacter.Absolute,
         PlotKey.Type2D Type2D.SharpPlot]
        [Coordinate2D.fromPair (1, 2)]).add_key
        (PlotKey.XError ErrorCharacter.Relative)).keys
      = [PlotKey.Custom ("a")] ++ [PlotKey.Type2D Type2D.SharpPlot] ++
        [PlotKey.XError ErrorCharacter.Relative] := by
  have h := (claim10_add_key_frame.1
    (Plot2D.mk
      [PlotKey.Custom ("a"), PlotKey.XError ErrorCharacter.Absolute,
       PlotKey.Type2D Type2D.SharpPlot]
      [Coordinate2D.fromPair (1, 2)])
    (PlotKey.XError ErrorCharacter.Relative)).2.2.2
    [PlotKey.Custom ("a")] (PlotKey.XError ErrorCharacter.Absolute)
    [PlotKey.Type2D Type2D.SharpPlot]
    (by decide) rfl (by decide) (by decide)
  exact h

/-- Counterexample to C3 as stated: `Plot2D::new()` has an empty option
list, yet its rendered text contains the substring `[]`, because the
`Plot2D` display always writes the brackets. -/
theorem claim3_counterexample :
    Plot2D.new.keys = [] ∧ strContainsSub ("[]") (Plot2D.new.render) = true := by
  constructor
  · rfl
  · decide

/-- Claim C3 (amended): for `Axis` and `Picture` with an empty option
list the bracketed option block is omitted entirely (and an empty axis
or picture contains no `[]` at all), while a `Plot2D` always renders
its brackets, producing `[]` when its key list is empty. -/
theorem claim3_empty_options_render :
    (∀ a : Axis, a.keys = [] →
        a.render = "\\begin\x7baxis\x7d\n" ++
          strConcatMap (fun p => p.render ++ "\n") a.plots ++ "\\end\x7baxis\x7d")
  ∧ (∀ x : Picture, x.keys = [] →
        x.render = "\\begin\x7btikzpicture\x7d\n" ++
          strConcatMap (fun a => a.render ++ "\n") x.axes ++ "\\end\x7btikzpicture\x7d")
  ∧ strContainsSub ("[]") (Axis.new.render) = false
  ∧ strContainsSub ("[]") (Picture.new.render) = false
  ∧ (∀ p : Plot2D, p.keys = [] →
        p.render = "\t\\addplot[] coordinates \x7b\n" ++
          strConcatMap (fun c => "\t\t" ++ c.render ++ "\n") p.coordinates ++ "\t\x7d;") := by
  exact ⟨axis_render_empty_keys, picture_render_empty_keys, by decide, by decide,
    plot_render_empty_keys⟩

/-- Witness for the amended C3 at a concrete empty axis. -/
theorem claim3_empty_options_render_witness :
    Axis.new.render = "\\begin\x7baxis\x7d\n" ++
      strConcatMap (fun p => p.render ++ "\n") Axis.new.plots ++ "\\end\x7baxis\x7d" :=
  claim3_empty_options_render.1 Axis.new rfl

/-- Claim C6: float fields render with integral suppression — an
integral value prints as a plain integer with no decimal point
(`1.0 → "1"`, `-1.0 → "-1"`), a non-integral value keeps its
fractional part (`0.5 → "0.5"`) — and the parametrized `Type2D`
variants render their numeric fields in a fixed order with both fields
always present. -/
theorem claim6_float_formatting :
    (∀ q : ℚ, q.den = 1 → fmtF64 q = intRepr q.num ∧ '.' ∉ (fmtF64 q).data)
  ∧ (∀ q : ℚ, ¬ q.den = 1 → '.' ∈ (fmtF64 q).data)
  ∧ fmtF64 1 = "1" ∧ fmtF64 (-1) = "-1" ∧ fmtF64 (mkRat 1 2) = "0.5"
  ∧ (∀ w s : ℚ, (Type2D.XBar w s).render =
      "xbar, bar width=" ++ fmtF64 w ++ ", bar shift=" ++ fmtF64 s)
  ∧ (∀ w s : ℚ, (Type2D.YBar w s).render =
      "ybar, bar width=" ++ fmtF64 w ++ ", bar shift=" ++ fmtF64 s)
  ∧ (∀ t : ℚ, (Type2D.Smooth t).render = "smooth, tension=" ++ fmtF64 t)
  ∧ (Type2D.XBar (mkRat 1 2) 1).render = "xbar, bar width=0.5, bar shift=1" := by
  refine ⟨?_, ?_, by decide, by decide, by decide,
    fun w s => rfl, fun w s => rfl, fun t => rfl, by decide⟩
  · intro q h
    have heq : fmtF64 q = intRepr q.num := by rw [fmtF64, if_pos h]
    exact ⟨heq, heq ▸ intRepr_no_dot q.num⟩
  · intro q h
    rw [fmtF64, if_neg h]
    simp only [str_data_append]
    refine List.mem_append.mpr (Or.inl (List.mem_append.mpr (Or.inr ?_)))
    decide

/-- Witness for C6 at concrete integral and non-integral inputs. -/
theorem claim6_float_formatting_witness :
    (fmtF64 3 = intRepr (3 : ℚ).num ∧ '.' ∉ (fmtF64 3).data)
  ∧ '.' ∈ (fmtF64 (mkRat 1 2)).data :=
  ⟨claim6_float_formatting.1 3 (by decide),
   claim6_float_formatting.2.1 (mkRat 1 2) (by decide)⟩

/-- Claim C7: `Color::from_mix` over a non-empty sequence renders as
the fixed prefix `"rgb,255:"` followed by the text of each color and its
weight joined by a comma, entries separated by `";"` with no trailing
separator; for red/200 and blue/55 the result is exactly
`"rgb,255:red,200;blue,55"`. -/
theorem claim7_from_mix :
    (∀ l : List (Color × Nat), ¬ l = [] →
        (Color.from_mix l).value =
          "rgb,255:" ++ sepBy (";") (l.map fun cw => cw.1.value ++ "," ++ natRepr cw.2))
  ∧ (Color.from_mix [(PredefinedColor.Red.toColor, 200),
      (PredefinedColor.Blue.toColor, 55)]).value = "rgb,255:red,200;blue,55" := by
  constructor
  · intro l hl
    show strConcat (("rgb,255:" :: mixParts l).dropLast) = _
    cases l with
    | nil => exact absurd rfl hl
    | cons cw rest =>
      rw [List.dropLast_cons_of_ne_nil (mixParts_ne_nil cw rest)]
      rw [show ∀ (s : String) (t : List String), strConcat (s :: t) = s ++ strConcat t
        from fun s t => rfl]
      rw [strConcat_dropLast_mixParts (cw :: rest) (by simp)]
  · decide

/-- Witness for C7 at a concrete singleton mix. -/
theorem claim7_from_mix_witness :
    (Color.from_mix [(Color.mk ("red"), 200)]).value =
      "rgb,255:" ++ sepBy (";")
        ([(Color.mk ("red"), 200)].map fun cw => cw.1.value ++ "," ++ natRepr cw.2) :=
  claim7_from_mix.1 [(Color.mk ("red"), 200)] (by decide)

/-- Counterexample to C8 as stated: `Color::from_mix` of the empty
sequence pops the prefix itself, so the result is the empty string,
not the bare prefix `"rgb,255:"`. -/
theorem claim8_counterexample :
    (Color.from_mix []).value = "" ∧ ¬ (Color.from_mix []).value = "rgb,255:" := by
  constructor
  · rfl
  · decide

/-- Claim C8 (amended): `from_mix` of the empty sequence succeeds and
produces the empty string (the `pop` removes the prefix itself); a
single pair produces the prefix followed by that one color and weight
with no separator. -/
theorem claim8_degenerate_mixes :
    (Color.from_mix []).value = ""
  ∧ ∀ (c : Color) (w : Nat),
      (Color.from_mix [(c, w)]).value = "rgb,255:" ++ c.value ++ "," ++ natRepr w := by
  refine ⟨rfl, ?_⟩
  intro c w
  show strConcat ["rgb,255:", c.value, ",", natRepr w] = _
  apply str_data_ext
  simp only [strConcat, str_data_append, str_data_empty, List.append_assoc, List.append_nil]
